import Mathlib

/-!
Verification of the template compiler of `gulp-static-html` (`src/index.ts`).

The compiler (`parseTemplate`) scans raw template text for delimiter-bounded
tags and emits an executable rendering program: literal runs are embedded in
backtick string literals (escaping `\`, the backtick, and `$`), escaped-output
tags become `$xml(expr)` arguments of `$buffer.push`, unescaped-output tags
push the raw value, import tags splice the recursively parsed imported
template as an immediately-invoked function receiving the buffer and a locals
object, and any other tag body is spliced verbatim as a statement.  Rendering
joins the buffer with the empty separator (JavaScript `Array.prototype.join`,
which maps `null`/`undefined` elements to the empty string).

The embedding below represents the generated program as a list of `Node`s in
one-to-one correspondence with the pieces the source appends to its `parsed`
string, and represents rendering as a fold over that list.  JavaScript
evaluation of expression strings, statement fragments and locals expressions
is abstracted by three oracle functions over an abstract scope type; the
scanner, the literal escaping, the HTML escaper, and the buffer join are
modelled exactly.  A `Nat` fuel argument makes the recursions structural; it
is a model artifact only (every claim is settled with fuel large enough that
the `noFuel` outcome is unreachable).
-/

namespace StaticHtml

/-- A JavaScript value as far as the output buffer is concerned: the buffer
holds strings pushed for literals and escaped output, and arbitrary values
pushed by unescaped-output tags, of which we model `null`, `undefined` and
strings. -/
inductive JSValue where
  | vNull : JSValue
  | vUndefined : JSValue
  | vStr : List Char → JSValue
  deriving DecidableEq, Repr

/-- One unit of the generated rendering program, in one-to-one correspondence
with the pieces `parseTemplate` (src/index.ts lines 193-256) appends to its
`parsed` string:
  * `lit t` — a backtick string literal pushed on the buffer; `t` is the
    escaped payload as embedded between the backticks;
  * `escTag e` — `$xml(e)` pushed on the buffer (lines 206-211);
  * `rawTag e` — `(e)` pushed on the buffer (lines 213-218);
  * `impTag child lo` — the imported template's program spliced as
    `(function($buffer,$locals){child})($buffer,lo)` (lines 220-232); `lo` is
    the locals expression string, `none` standing for the importer's own
    `$locals`;
  * `code e` — the tag body spliced as a statement (lines 234-238). -/
inductive Node where
  | lit : List Char → Node
  | escTag : List Char → Node
  | rawTag : List Char → Node
  | impTag : List Node → Option (List Char) → Node
  | code : List Char → Node

/-- Compile-time failures.  `unterminated` models the `Error` thrown by
`tagContents` (src/index.ts lines 258-270), `cacheUnimplemented` the `Error`
thrown by `getTemplate` (lines 278-286), `loadFailed` a rejection of the
`loadFile` collaborator.  `noFuel` is an artifact of the fuel-indexed
recursion, unreachable for sufficiently large fuel. -/
inductive PError where
  | unterminated : List Char → PError
  | cacheUnimplemented : PError
  | loadFailed : List Char → PError
  | noFuel : PError
  deriving DecidableEq, Repr

/-- The apostrophe character. -/
def squote : Char := Char.ofNat 39

/-- The double-quote character. -/
def dquote : Char := Char.ofNat 34

/-- The backtick character, used by the generated code to quote literals. -/
def backtick : Char := Char.ofNat 96

/-- The error message of the unterminated-tag failure, exactly the string
built at src/index.ts line 261, and the messages of the other failures. -/
def errorMessage : PError → List Char
  | .unterminated endTag =>
      "Could not find matching close tag ".data ++ [squote] ++ endTag ++ [squote, Char.ofNat 46]
  | .cacheUnimplemented => "The template cache is unimplemented".data
  | .loadFailed name => "could not load template ".data ++ name
  | .noFuel => "model artifact: recursion fuel exhausted".data

/-- A fully merged delimiter set (the source's `DelimiterOptions` after
`Object.assign({}, DEFAULT_DELIMITERS, options.delimiters)`). -/
structure Delims where
  open_ : List Char
  close_ : List Char
  escape_ : List Char
  unescape_ : List Char
  imp_ : List Char
  comment_ : List Char
  deriving DecidableEq, Repr

/-- The user-supplied partial delimiter set (the source's exported
`DelimiterOptions` interface, all fields optional). -/
structure DelimiterOptions where
  open_ : Option (List Char) := none
  close_ : Option (List Char) := none
  escape_ : Option (List Char) := none
  unescape_ : Option (List Char) := none
  imp_ : Option (List Char) := none
  comment_ : Option (List Char) := none

/-- `DEFAULT_DELIMITERS` of src/index.ts lines 58-65. -/
def DEFAULT_DELIMITERS : Delims :=
  { open_ := "<%".data, close_ := "%>".data, escape_ := "=".data,
    unescape_ := "-".data, imp_ := "+".data, comment_ := "!".data }

/-- The delimiter merge performed by `handleOptions` (src/index.ts line 165):
`Object.assign({}, DEFAULT_DELIMITERS, options.delimiters)` — each field the
user supplied overrides the default, nothing is validated. -/
def mergeDelimiters (p : DelimiterOptions) : Delims :=
  { open_ := p.open_.getD DEFAULT_DELIMITERS.open_,
    close_ := p.close_.getD DEFAULT_DELIMITERS.close_,
    escape_ := p.escape_.getD DEFAULT_DELIMITERS.escape_,
    unescape_ := p.unescape_.getD DEFAULT_DELIMITERS.unescape_,
    imp_ := p.imp_.getD DEFAULT_DELIMITERS.imp_,
    comment_ := p.comment_.getD DEFAULT_DELIMITERS.comment_ }

/-- The options record threaded through the compiler, after `handleOptions`:
the merged delimiters, the truthiness of the `cache` option, and the
`loadFile` collaborator (modelled as a pure partial map from template names
to template sources; `none` models a rejected load). -/
structure Opts where
  delimiters : Delims
  cache : Bool
  loadFile : List Char → Option (List Char)

/-- Escaping of one literal character for embedding in a backtick string
literal (src/index.ts lines 240-252): backslash, backtick and dollar are
preceded by a backslash; everything else is copied unchanged. -/
def escLitChar (c : Char) : List Char :=
  if c = '\\' then ['\\', '\\']
  else if c = backtick then ['\\', backtick]
  else if c = '$' then ['\\', '$']
  else [c]

/-- Escaping of a literal run, character by character. -/
def escapeLit : List Char → List Char
  | [] => []
  | c :: t => escLitChar c ++ escapeLit t

/-- JavaScript's cooking of a backtick string literal, restricted to the
escape sequences `escLitChar` produces: a backslash plus a character cooks to
that character; a raw carriage return, or a carriage return followed by a
line feed, cooks to a single line feed (ECMAScript normalizes line
terminators inside template literals); everything else is copied.  This is
what the renderer does to a `lit` payload when the generated code runs. -/
def unescapeLit : List Char → List Char
  | [] => []
  | [a] => if a = '\r' then ['\n'] else [a]
  | a :: b :: t =>
      if a = '\\' then b :: unescapeLit t
      else if a = '\r' then
        if b = '\n' then '\n' :: unescapeLit t
        else '\n' :: unescapeLit (b :: t)
      else a :: unescapeLit (b :: t)

/-- Normalization of line terminators as JavaScript template-literal cooking
performs it on raw text: a carriage-return/line-feed pair and a lone
carriage return both become a line feed; all other characters are kept. -/
def crNorm : List Char → List Char
  | [] => []
  | [a] => if a = '\r' then ['\n'] else [a]
  | a :: b :: t =>
      if a = '\r' then
        if b = '\n' then '\n' :: crNorm t
        else '\n' :: crNorm (b :: t)
      else a :: crNorm (b :: t)

/-- The default escaper's action on one character (the `replace` callback of
`escape`, src/index.ts lines 322-335). -/
def escapeChar (c : Char) : List Char :=
  if c = '<' then "&lt;".data
  else if c = '>' then "&gt;".data
  else if c = '&' then "&amp;".data
  else if c = squote then "&apos;".data
  else if c = dquote then "&quot;".data
  else [c]

/-- The default escaper's action on a string, character by character in
order (`String(unsafe).replace(/[<>&'"]/g, ...)`). -/
def escapeStr : List Char → List Char
  | [] => []
  | c :: t => escapeChar c ++ escapeStr t

/-- The default escaper `escape` (src/index.ts lines 322-335): `null` and
`undefined` (JavaScript `unsafe == null`) map to the empty string, a string
is escaped character by character. -/
def escape : JSValue → List Char
  | .vNull => []
  | .vUndefined => []
  | .vStr s => escapeStr s

/-- `$buffer.join(``)` (src/index.ts line 297): concatenation of the buffer
elements where `null` and `undefined` elements are converted to the empty
string, as JavaScript `Array.prototype.join` specifies. -/
def jsJoin : List JSValue → List Char
  | [] => []
  | .vNull :: vs => jsJoin vs
  | .vUndefined :: vs => jsJoin vs
  | .vStr s :: vs => s ++ jsJoin vs

/-- JavaScript `String.prototype.trim` whitespace (the ASCII part, which is
all the claims exercise). -/
def isJsSpace (c : Char) : Bool :=
  c = ' ' || c = '\t' || c = '\n' || c = '\r' || c = Char.ofNat 11 || c = Char.ofNat 12

/-- JavaScript `String.prototype.trim`. -/
def trimChars (l : List Char) : List Char :=
  ((l.dropWhile isJsSpace).reverse.dropWhile isJsSpace).reverse

/-- `String.prototype.indexOf` relative to the cursor: the index of the first
occurrence of `pat` in the list, `none` when there is none (the source's
`-1`).  An empty pattern occurs at index 0, as in JavaScript. -/
def findSub (pat : List Char) : List Char → Option Nat
  | [] => if pat = [] then some 0 else none
  | c :: t =>
      if pat.isPrefixOf (c :: t) then some 0
      else (findSub pat t).map (fun n => n + 1)

/-- `String.prototype.split("|")`: split on every pipe character. -/
def splitPipe : List Char → List (List Char)
  | [] => [[]]
  | c :: t =>
      if c = '|' then [] :: splitPipe t
      else (c :: (splitPipe t).headI) :: (splitPipe t).tail

/-- `true` when the list contains no pipe character. -/
def noPipe (l : List Char) : Bool := l.all (fun c => c != '|')

/-- The template name of an import-tag body:
`importContents[0].trim()` with `importContents = body.split("|")`
(src/index.ts lines 225-226). -/
def impName (body : List Char) : List Char := trimChars (splitPipe body).headI

/-- The locals expression of an import-tag body:
`importContents[1] && importContents[1].trim() || "$locals"`
(src/index.ts line 227) — `none` models the `"$locals"` (scope-sharing)
outcome, reached when the second segment is absent, empty, or trims to the
empty string. -/
def impLocals (body : List Char) : Option (List Char) :=
  match (splitPipe body).get? 1 with
  | none => none
  | some p => if trimChars p = [] then none else some (trimChars p)

/-- Modelled from the spec: "split the tag body on the first pipe character
(`|`); ... the right side (trimmed), if present and non-empty, is a
locals-expression string".  Kept separate from `impLocals` (which follows the
source) to compare the two. -/
def specImpLocals (body : List Char) : Option (List Char) :=
  match findSub ['|'] body with
  | none => none
  | some n =>
      if trimChars (body.drop (n + 1)) = [] then none
      else some (trimChars (body.drop (n + 1)))

/-- The scanning loop of `parseTemplate` (src/index.ts lines 195-253), as a
function from the remaining input and the accumulated (escaped) literal run
to the list of `Node`s still to be produced.  The correspondence with the
source, case by case:
  * end of input — the source closes the final backtick literal
    (`parsed += "\x60);\x7d"`), pushing the accumulated run: one last `lit`;
  * the open delimiter matches (`unparsed.slice(i, i + OPEN.length) === OPEN`)
    — dispatch on the single character after it, exactly the source's
    `switch (unparsed[i])`:
      - comment: `tagContents(COMMENT + CLOSE)` discards the body, searching
        from the position of the dispatch character itself, and the literal
        run continues across the comment;
      - escape / unescape: `tagContents()` (search starts after the dispatch
        character) yields the expression; the current literal run is pushed
        before the tag's value;
      - comment case aside, the search failing means the `tagContents` throw;
      - the import tag reads the body, splits it, checks the cache and calls
        the loader and the parser on the imported source (`getTemplate`,
        inlined here), pushing the current run plus an empty literal first;
      - default: the body (which includes the dispatch character, since the
        source does not advance past it) becomes a `code` node;
  * otherwise one literal character is consumed and escaped onto the run.
Fuel decreases on every step; `noFuel` is unreachable for fuel at least the
length of the input plus the number of tags (all theorems below either hold
for every fuel or carry an explicit bound). -/
def parseAux (opts : Opts) : Nat → List Char → List Char → Except PError (List Node)
  | 0, [], acc => .ok [.lit acc]
  | 0, _ :: _, _ => .error .noFuel
  | _ + 1, [], acc => .ok [.lit acc]
  | f + 1, c :: t, acc =>
    if opts.delimiters.open_.isPrefixOf (c :: t) then
      match (c :: t).drop opts.delimiters.open_.length with
      | [] =>
        match findSub opts.delimiters.close_ ([] : List Char) with
        | none => .error (.unterminated opts.delimiters.close_)
        | some n =>
          match parseAux opts f (List.drop (n + opts.delimiters.close_.length) []) [] with
          | .error e => .error e
          | .ok ns => .ok (.lit acc :: .code (List.take n []) :: ns)
      | c2 :: rt =>
        if ([c2] : List Char) = opts.delimiters.comment_ then
          match findSub (opts.delimiters.comment_ ++ opts.delimiters.close_) (c2 :: rt) with
          | none => .error (.unterminated (opts.delimiters.comment_ ++ opts.delimiters.close_))
          | some n =>
            parseAux opts f
              ((c2 :: rt).drop (n + (opts.delimiters.comment_ ++ opts.delimiters.close_).length))
              acc
        else if ([c2] : List Char) = opts.delimiters.escape_ then
          match findSub opts.delimiters.close_ rt with
          | none => .error (.unterminated opts.delimiters.close_)
          | some n =>
            match parseAux opts f (rt.drop (n + opts.delimiters.close_.length)) [] with
            | .error e => .error e
            | .ok ns => .ok (.lit acc :: .escTag (rt.take n) :: ns)
        else if ([c2] : List Char) = opts.delimiters.unescape_ then
          match findSub opts.delimiters.close_ rt with
          | none => .error (.unterminated opts.delimiters.close_)
          | some n =>
            match parseAux opts f (rt.drop (n + opts.delimiters.close_.length)) [] with
            | .error e => .error e
            | .ok ns => .ok (.lit acc :: .rawTag (rt.take n) :: ns)
        else if ([c2] : List Char) = opts.delimiters.imp_ then
          match findSub opts.delimiters.close_ rt with
          | none => .error (.unterminated opts.delimiters.close_)
          | some n =>
            if opts.cache then .error .cacheUnimplemented
            else
              match opts.loadFile (impName (rt.take n)) with
              | none => .error (.loadFailed (impName (rt.take n)))
              | some src =>
                match parseAux opts f src [] with
                | .error e => .error e
                | .ok child =>
                  match parseAux opts f (rt.drop (n + opts.delimiters.close_.length)) [] with
                  | .error e => .error e
                  | .ok ns =>
                    .ok (.lit acc :: .lit [] :: .impTag child (impLocals (rt.take n)) :: ns)
        else
          match findSub opts.delimiters.close_ (c2 :: rt) with
          | none => .error (.unterminated opts.delimiters.close_)
          | some n =>
            match parseAux opts f ((c2 :: rt).drop (n + opts.delimiters.close_.length)) [] with
            | .error e => .error e
            | .ok ns => .ok (.lit acc :: .code ((c2 :: rt).take n) :: ns)
    else parseAux opts f t (acc ++ escLitChar c)

/-- The tag-dispatch step of the scanner as a standalone function of the text
after the open delimiter: `parseAux` at a position where the open delimiter
matches unfolds to this (theorem `parseAux_open` below).  The body is
verbatim the tag-handling part of `parseAux`. -/
def parseTag (opts : Opts) (f : Nat) (rest acc : List Char) : Except PError (List Node) :=
  match rest with
  | [] =>
    match findSub opts.delimiters.close_ ([] : List Char) with
    | none => .error (.unterminated opts.delimiters.close_)
    | some n =>
      match parseAux opts f (List.drop (n + opts.delimiters.close_.length) []) [] with
      | .error e => .error e
      | .ok ns => .ok (.lit acc :: .code (List.take n []) :: ns)
  | c2 :: rt =>
    if ([c2] : List Char) = opts.delimiters.comment_ then
      match findSub (opts.delimiters.comment_ ++ opts.delimiters.close_) (c2 :: rt) with
      | none => .error (.unterminated (opts.delimiters.comment_ ++ opts.delimiters.close_))
      | some n =>
        parseAux opts f
          ((c2 :: rt).drop (n + (opts.delimiters.comment_ ++ opts.delimiters.close_).length))
          acc
    else if ([c2] : List Char) = opts.delimiters.escape_ then
      match findSub opts.delimiters.close_ rt with
      | none => .error (.unterminated opts.delimiters.close_)
      | some n =>
        match parseAux opts f (rt.drop (n + opts.delimiters.close_.length)) [] with
        | .error e => .error e
        | .ok ns => .ok (.lit acc :: .escTag (rt.take n) :: ns)
    else if ([c2] : List Char) = opts.delimiters.unescape_ then
      match findSub opts.delimiters.close_ rt with
      | none => .error (.unterminated opts.delimiters.close_)
      | some n =>
        match parseAux opts f (rt.drop (n + opts.delimiters.close_.length)) [] with
        | .error e => .error e
        | .ok ns => .ok (.lit acc :: .rawTag (rt.take n) :: ns)
    else if ([c2] : List Char) = opts.delimiters.imp_ then
      match findSub opts.delimiters.close_ rt with
      | none => .error (.unterminated opts.delimiters.close_)
      | some n =>
        if opts.cache then .error .cacheUnimplemented
        else
          match opts.loadFile (impName (rt.take n)) with
          | none => .error (.loadFailed (impName (rt.take n)))
          | some src =>
            match parseAux opts f src [] with
            | .error e => .error e
            | .ok child =>
              match parseAux opts f (rt.drop (n + opts.delimiters.close_.length)) [] with
              | .error e => .error e
              | .ok ns =>
                .ok (.lit acc :: .lit [] :: .impTag child (impLocals (rt.take n)) :: ns)
    else
      match findSub opts.delimiters.close_ (c2 :: rt) with
      | none => .error (.unterminated opts.delimiters.close_)
      | some n =>
        match parseAux opts f ((c2 :: rt).drop (n + opts.delimiters.close_.length)) [] with
        | .error e => .error e
        | .ok ns => .ok (.lit acc :: .code ((c2 :: rt).take n) :: ns)

/-- `parseTemplate` (src/index.ts lines 181-271): scan a whole template,
starting with an empty literal run. -/
def parseTemplate (opts : Opts) (f : Nat) (unparsed : List Char) : Except PError (List Node) :=
  parseAux opts f unparsed []

/-- `getTemplate` (src/index.ts lines 278-286): a populated cache option is
rejected as unimplemented; otherwise the template is loaded and parsed. -/
def getTemplate (opts : Opts) (f : Nat) (templateName : List Char) : Except PError (List Node) :=
  if opts.cache then .error .cacheUnimplemented
  else
    match opts.loadFile templateName with
    | none => .error (.loadFailed templateName)
    | some unparsed => parseTemplate opts f unparsed

/-- `compileTemplate` (src/index.ts lines 293-299) up to the `new Function`
wrapping: parse the template (the options having been merged by
`handleOptions`).  The callable the source returns corresponds to
`renderTemplate` applied to these nodes.  Note it parses the given text
directly — it does not go through `getTemplate` and never checks the cache. -/
def compileTemplate (opts : Opts) (f : Nat) (unparsed : List Char) : Except PError (List Node) :=
  parseTemplate opts f unparsed

/-- `loadAndCompileTemplate` (src/index.ts lines 306-312) up to the
`new Function` wrapping: fetch through `getTemplate` (so the cache check
applies) and return the compiled nodes. -/
def loadAndCompileTemplate (opts : Opts) (f : Nat) (templateName : List Char) :
    Except PError (List Node) :=
  getTemplate opts f templateName

/-- Execution of the generated program over an abstract scope type `S`:
`ev` evaluates an expression string against the scope (escaped/unescaped
output tags), `ex` executes a statement fragment, yielding the updated scope
(code tags), `el` evaluates a locals expression to a new scope (imports with
a locals expression).  The buffer contents and the final scope are returned.
The import cases mirror the generated
`(function($buffer,$locals){child})($buffer,·)`: with `none` the importer's
own scope object is passed, so the child's mutations persist for the
continuation; with a locals expression the child runs against the freshly
evaluated scope and the continuation keeps the importer's scope.  Fuel again
makes the recursion structural and decreases on every step. -/
def renderList {S : Type} (ev : List Char → S → JSValue) (ex : List Char → S → S)
    (el : List Char → S → S) : Nat → List Node → S → List JSValue × S
  | 0, _, σ => ([], σ)
  | _ + 1, [], σ => ([], σ)
  | f + 1, .lit t :: ns, σ =>
      let r := renderList ev ex el f ns σ
      (.vStr (unescapeLit t) :: r.1, r.2)
  | f + 1, .escTag e :: ns, σ =>
      let r := renderList ev ex el f ns σ
      (.vStr (escape (ev e σ)) :: r.1, r.2)
  | f + 1, .rawTag e :: ns, σ =>
      let r := renderList ev ex el f ns σ
      (ev e σ :: r.1, r.2)
  | f + 1, .code e :: ns, σ => renderList ev ex el f ns (ex e σ)
  | f + 1, .impTag child none :: ns, σ =>
      let rc := renderList ev ex el f child σ
      let r := renderList ev ex el f ns rc.2
      (rc.1 ++ r.1, r.2)
  | f + 1, .impTag child (some e) :: ns, σ =>
      let rc := renderList ev ex el f child (el e σ)
      let r := renderList ev ex el f ns σ
      (rc.1 ++ r.1, r.2)

/-- Rendering a compiled template: run the program and join the buffer
(src/index.ts line 297: `return $buffer.join(\x60\x60);`). -/
def renderTemplate {S : Type} (ev : List Char → S → JSValue) (ex : List Char → S → S)
    (el : List Char → S → S) (f : Nat) (ns : List Node) (σ : S) : List Char :=
  jsJoin (renderList ev ex el f ns σ).1

/-- Compile then render, the composition a caller of `compileTemplate`
performs. -/
def compileRender {S : Type} (opts : Opts) (f : Nat) (unparsed : List Char)
    (ev : List Char → S → JSValue) (ex : List Char → S → S) (el : List Char → S → S)
    (σ : S) : Except PError (List Char) :=
  (compileTemplate opts f unparsed).map (fun ns => renderTemplate ev ex el f ns σ)

/-- A node that is neither a code fragment nor an import. -/
def plainNode : Node → Bool
  | .lit _ => true
  | .escTag _ => true
  | .rawTag _ => true
  | _ => false

/-- A compiled template with no code and no import nodes. -/
def plainNodes (ns : List Node) : Bool := ns.all plainNode

/-- A loader with no templates (imports always fail to load). -/
def loader0 : List Char → Option (List Char) := fun _ => none

/-- The loader of the repository's test file: `"world"` maps to `"World"`. -/
def loaderWorld : List Char → Option (List Char) :=
  fun n => if n = "world".data then some "World".data else none

/-- Options with the default delimiters, no cache, and the given loader. -/
def mkOpts (loader : List Char → Option (List Char)) : Opts :=
  { delimiters := DEFAULT_DELIMITERS, cache := false, loadFile := loader }

/-- Options with a populated cache. -/
def cacheOpts : Opts :=
  { delimiters := DEFAULT_DELIMITERS, cache := true, loadFile := loaderWorld }

/-- A delimiter configuration whose open and close delimiters coincide. -/
def eqDelimsCfg : DelimiterOptions :=
  { open_ := some "@@".data, close_ := some "@@".data }

/-- Trivial oracles over the unit scope, for renders that evaluate nothing
interesting. -/
def ev0 : List Char → Unit → JSValue := fun _ _ => .vUndefined

/-- Trivial statement oracle over the unit scope. -/
def ex0 : List Char → Unit → Unit := fun _ σ => σ

/-- Trivial locals oracle over the unit scope. -/
def el0 : List Char → Unit → Unit := fun _ σ => σ

/-- An expression oracle whose every evaluation is the string `"<b>"`. -/
def evB : List Char → Unit → JSValue := fun _ _ => .vStr "<b>".data

/-- An expression oracle whose every evaluation is `null`. -/
def evNull : List Char → Unit → JSValue := fun _ _ => .vNull

/-- An expression oracle whose every evaluation is `undefined`. -/
def evUndef : List Char → Unit → JSValue := fun _ _ => .vUndefined

/-- Concrete scope for the import demonstrations: the value bound to `x`,
if any. -/
def evalX : List Char → Option (List Char) → JSValue :=
  fun e σ =>
    if e = " x ".data then
      match σ with
      | some v => .vStr v
      | none => .vUndefined
    else .vUndefined

/-- Statement oracle for the import demonstrations: the fragment `" setx "`
binds `x` to `"9"` in the current scope. -/
def execSetX : List Char → Option (List Char) → Option (List Char) :=
  fun e σ => if e = " setx ".data then some "9".data else σ

/-- Locals oracle for the import demonstrations: the locals expression
`"newscope"` evaluates to a fresh scope binding `x` to `"1"`. -/
def evalNewScope : List Char → Option (List Char) → Option (List Char) :=
  fun e σ => if e = "newscope".data then some "1".data else σ

/-- Loader for the import demonstrations: `"child"` is a template printing
`x` escaped, `"child2"` a template running the fragment `" setx "`. -/
def childLoader : List Char → Option (List Char) :=
  fun n =>
    if n = "child".data then some "<%= x %>".data
    else if n = "child2".data then some "<% setx %>".data
    else none

/-! ### Helper lemmas about the scanner -/

theorem isPrefixOf_append_self (u v : List Char) : u.isPrefixOf (u ++ v) = true := by
  induction u with
  | nil => cases v <;> rfl
  | cons a as ih => simp [List.isPrefixOf, ih]

/-- At a position where the open delimiter matches and at least one character
follows it, the scanner performs exactly the tag-dispatch step. -/
theorem parseAux_open (opts : Opts) (f : Nat) (c2 : Char) (rt acc : List Char) :
    parseAux opts (f + 1) (opts.delimiters.open_ ++ c2 :: rt) acc
      = parseTag opts f (c2 :: rt) acc := by
  have hne : opts.delimiters.open_ ++ c2 :: rt ≠ [] := by simp
  cases hs : opts.delimiters.open_ ++ c2 :: rt with
  | nil => exact absurd hs hne
  | cons c t =>
    rw [parseAux, parseTag, ← hs, isPrefixOf_append_self, List.drop_left]
    simp

theorem findSub_cons_none {p : List Char} {c : Char} {t : List Char}
    (h : findSub p (c :: t) = none) :
    p.isPrefixOf (c :: t) = false ∧ findSub p t = none := by
  rw [findSub] at h
  cases hb : p.isPrefixOf (c :: t) with
  | true => rw [hb] at h; simp at h
  | false =>
    rw [hb] at h
    simp only [Bool.false_eq_true, if_false] at h
    refine ⟨rfl, ?_⟩
    cases hft : findSub p t <;> simp [hft] at h ⊢

/-- Scanning text in which the open delimiter never occurs consumes it one
character at a time into the current literal run. -/
theorem parse_noOpen (opts : Opts) :
    ∀ (s : List Char) (f : Nat) (acc : List Char),
      findSub opts.delimiters.open_ s = none → s.length ≤ f →
      parseAux opts f s acc = .ok [.lit (acc ++ escapeLit s)] := by
  intro s
  induction s with
  | nil =>
    intro f acc _ _
    cases f <;> simp [parseAux, escapeLit]
  | cons c t ih =>
    intro f acc hfind hlen
    obtain ⟨hp, hft⟩ := findSub_cons_none hfind
    cases f with
    | zero => simp at hlen
    | succ f =>
      rw [parseAux, hp]
      simp only [Bool.false_eq_true, if_false]
      rw [ih f (acc ++ escLitChar c) hft (by simp at hlen; omega)]
      simp [escapeLit, List.append_assoc]

theorem escLitChar_ne_nil (c : Char) : escLitChar c ≠ [] := by
  unfold escLitChar
  split_ifs <;> simp

theorem escapeLit_eq_nil {t : List Char} (h : escapeLit t = []) : t = [] := by
  cases t with
  | nil => rfl
  | cons c u =>
    rw [escapeLit] at h
    exact absurd (List.append_eq_nil.mp h).1 (escLitChar_ne_nil c)

/-- The escaped form of a non-empty run starts with a backslash or with its
own first character. -/
theorem escapeLit_cons_head (b : Char) (t : List Char) :
    ∃ h rest, escapeLit (b :: t) = h :: rest ∧ (h = '\\' ∨ h = b) := by
  rw [escapeLit, escLitChar]
  split_ifs with h1 h2 h3
  · exact ⟨'\\', '\\' :: escapeLit t, rfl, .inl rfl⟩
  · exact ⟨'\\', backtick :: escapeLit t, rfl, .inl rfl⟩
  · exact ⟨'\\', '$' :: escapeLit t, rfl, .inl rfl⟩
  · exact ⟨b, escapeLit t, rfl, .inr rfl⟩

theorem uE_bs (b : Char) (t : List Char) :
    unescapeLit ('\\' :: b :: t) = b :: unescapeLit t := rfl

theorem uE_cr {b : Char} (hb : b ≠ '\n') (t : List Char) :
    unescapeLit ('\r' :: b :: t) = '\n' :: unescapeLit (b :: t) := by
  rw [unescapeLit, if_neg (by decide), if_pos rfl, if_neg hb]

theorem uE_cons {a : Char} (h1 : a ≠ '\\') (h2 : a ≠ '\r') (b : Char) (t : List Char) :
    unescapeLit (a :: b :: t) = a :: unescapeLit (b :: t) := by
  rw [unescapeLit, if_neg h1, if_neg h2]

theorem crNorm_cr {b : Char} (hb : b ≠ '\n') (t : List Char) :
    crNorm ('\r' :: b :: t) = '\n' :: crNorm (b :: t) := by
  rw [crNorm, if_pos rfl, if_neg hb]

theorem crNorm_cons {a : Char} (ha : a ≠ '\r') (t : List Char) :
    crNorm (a :: t) = a :: crNorm t := by
  cases t with
  | nil => simp [crNorm, ha]
  | cons b u => rw [crNorm, if_neg ha]

/-- Cooking a backtick literal inverts the parse-time escaping up to the
line-terminator normalization performed on the raw text. -/
theorem unescape_escape (s : List Char) : unescapeLit (escapeLit s) = crNorm s := by
  induction s using crNorm.induct with
  | case1 => rfl
  | case2 => rfl
  | case3 a ha =>
    by_cases h1 : a = '\\'
    · subst h1; rfl
    · by_cases h2 : a = backtick
      · subst h2; rfl
      · by_cases h3 : a = '$'
        · subst h3; rfl
        · simp [escapeLit, escLitChar, unescapeLit, crNorm, h1, h2, h3, ha]
  | case4 t ih =>
    show '\n' :: unescapeLit (escapeLit t) = '\n' :: crNorm t
    rw [ih]
  | case5 b t hb ih =>
    obtain ⟨h, rest, hE, hh⟩ := escapeLit_cons_head b t
    have hne : h ≠ '\n' := by
      rcases hh with h1 | h1 <;> subst h1
      · decide
      · exact hb
    show unescapeLit ('\r' :: escapeLit (b :: t)) = crNorm ('\r' :: b :: t)
    rw [hE, uE_cr hne, ← hE, ih, crNorm_cr hb]
  | case6 a b t ha ih =>
    by_cases h1 : a = '\\'
    · subst h1
      show unescapeLit ('\\' :: '\\' :: escapeLit (b :: t)) = crNorm ('\\' :: b :: t)
      rw [uE_bs, ih, crNorm_cons (a := '\\') (by decide)]
    · by_cases h2 : a = backtick
      · subst h2
        show unescapeLit ('\\' :: backtick :: escapeLit (b :: t)) = crNorm (backtick :: b :: t)
        rw [uE_bs, ih, crNorm_cons (a := backtick) (by decide)]
      · by_cases h3 : a = '$'
        · subst h3
          show unescapeLit ('\\' :: '$' :: escapeLit (b :: t)) = crNorm ('$' :: b :: t)
          rw [uE_bs, ih, crNorm_cons (a := '$') (by decide)]
        · obtain ⟨h, rest, hE, hh⟩ := escapeLit_cons_head b t
          show unescapeLit (escLitChar a ++ escapeLit (b :: t)) = crNorm (a :: b :: t)
          rw [show escLitChar a = [a] from by simp [escLitChar, h1, h2, h3],
            List.singleton_append, hE, uE_cons h1 ha, ← hE, ih, crNorm_cons ha]

/-- Text without carriage returns is untouched by the normalization. -/
theorem crNorm_id {s : List Char} (h : '\r' ∉ s) : crNorm s = s := by
  induction s with
  | nil => rfl
  | cons a t ih =>
    rw [List.mem_cons] at h
    push_neg at h
    rw [crNorm_cons (Ne.symm h.1), ih h.2]

theorem renderList_nil {S : Type} (ev : List Char → S → JSValue) (ex el : List Char → S → S)
    (f : Nat) (σ : S) : renderList ev ex el f [] σ = ([], σ) := by
  cases f <;> rfl

theorem splitPipe_ne_nil (u : List Char) : splitPipe u ≠ [] := by
  cases u with
  | nil => simp [splitPipe]
  | cons c t =>
    rw [splitPipe]
    split_ifs <;> simp

theorem splitPipe_noPipe {u : List Char} (h : noPipe u = true) : splitPipe u = [u] := by
  induction u with
  | nil => rfl
  | cons c t ih =>
    rw [noPipe, List.all_cons] at h
    simp only [Bool.and_eq_true, bne_iff_ne] at h
    rw [splitPipe, if_neg h.1, ih h.2]
    rfl

theorem splitPipe_pipe_append {u : List Char} (v : List Char) (h : noPipe u = true) :
    splitPipe (u ++ '|' :: v) = u :: splitPipe v := by
  induction u with
  | nil => rw [List.nil_append, splitPipe, if_pos rfl]
  | cons c t ih =>
    rw [noPipe, List.all_cons] at h
    simp only [Bool.and_eq_true, bne_iff_ne] at h
    rw [List.cons_append, splitPipe, if_neg h.1, ih h.2]
    rfl

theorem impName_noPipe {u : List Char} (h : noPipe u = true) : impName u = trimChars u := by
  rw [impName, splitPipe_noPipe h]
  rfl

theorem impLocals_noPipe {u : List Char} (h : noPipe u = true) : impLocals u = none := by
  rw [impLocals, splitPipe_noPipe h]
  rfl

theorem impName_pipe {u : List Char} (v : List Char) (h : noPipe u = true) :
    impName (u ++ '|' :: v) = trimChars u := by
  rw [impName, splitPipe_pipe_append v h]
  rfl

theorem impLocals_pipe {u : List Char} (v : List Char) (h : noPipe u = true) :
    impLocals (u ++ '|' :: v)
      = (if trimChars (splitPipe v).headI = [] then none
         else some (trimChars (splitPipe v).headI)) := by
  rw [impLocals, splitPipe_pipe_append v h]
  cases hv : splitPipe v with
  | nil => exact absurd hv (splitPipe_ne_nil v)
  | cons p ps => rfl

/-- Rendering a sequence with no code and no import nodes leaves the scope
unchanged and does not consult the statement or locals oracles. -/
theorem renderList_plain {S : Type} (ev : List Char → S → JSValue)
    (ex ex' el el' : List Char → S → S) :
    ∀ (ns : List Node) (f : Nat) (σ : S), plainNodes ns = true → ns.length ≤ f →
      (renderList ev ex el f ns σ).2 = σ ∧
      renderList ev ex el f ns σ = renderList ev ex' el' f ns σ := by
  intro ns
  induction ns with
  | nil =>
    intro f σ _ _
    simp [renderList_nil]
  | cons n t ih =>
    intro f σ hp hf
    rw [plainNodes, List.all_cons, Bool.and_eq_true] at hp
    cases f with
    | zero => simp at hf
    | succ f =>
      have hlen : t.length ≤ f := by
        simp only [List.length_cons] at hf
        omega
      obtain ⟨ih2, ihe⟩ := ih f σ hp.2 hlen
      cases n with
      | lit t0 =>
        refine ⟨?_, ?_⟩
        · simp only [renderList]
          exact ih2
        · simp only [renderList]
          rw [ihe]
      | escTag e =>
        refine ⟨?_, ?_⟩
        · simp only [renderList]
          exact ih2
        · simp only [renderList]
          rw [ihe]
      | rawTag e =>
        refine ⟨?_, ?_⟩
        · simp only [renderList]
          exact ih2
        · simp only [renderList]
          rw [ihe]
      | code e => exact absurd hp.1 (by simp [plainNode])
      | impTag child lo => exact absurd hp.1 (by simp [plainNode])

/-! ### The claims -/

/-- C1, counterexample: the template `"a\r\nb"` contains no open delimiter,
yet it renders as `"a\nb"` — JavaScript template-literal cooking normalizes
the carriage-return/line-feed pair embedded in the generated backtick
literal to a line feed, so rendering does not return the input text
unchanged. -/
theorem literal_cr_not_identity_cex :
    findSub "<%".data "a\r\nb".data = none ∧
    compileRender (mkOpts loader0) 20 "a\r\nb".data ev0 ex0 el0 () = .ok "a\nb".data ∧
    "a\nb".data ≠ "a\r\nb".data :=
  ⟨rfl, rfl, by decide⟩

/-- C1, amended: a template with no occurrence of the configured open
delimiter compiles to a single `Literal` node carrying the escaped text, and
rendering with any locals (and any oracles) returns the input text with line
terminators normalized as template-literal cooking does (CRLF and lone CR
become LF) — exactly the input text whenever it contains no carriage return;
the parse-time escaping of backslash, backtick and dollar is inverted at
render up to that normalization. -/
theorem literal_identity_round_trip (opts : Opts) (s : List Char) (f : Nat)
    (hno : findSub opts.delimiters.open_ s = none) (hf : s.length ≤ f) :
    parseTemplate opts f s = .ok [.lit (escapeLit s)] ∧
    unescapeLit (escapeLit s) = crNorm s ∧
    (∀ (S : Type) (ev : List Char → S → JSValue) (ex el : List Char → S → S) (σ : S),
      compileRender opts f s ev ex el σ = .ok (crNorm s)) ∧
    ('\r' ∉ s →
      ∀ (S : Type) (ev : List Char → S → JSValue) (ex el : List Char → S → S) (σ : S),
        compileRender opts f s ev ex el σ = .ok s) := by
  have hp : parseTemplate opts f s = .ok [.lit (escapeLit s)] := by
    simpa using parse_noOpen opts s f [] hno hf
  have hr : ∀ (S : Type) (ev : List Char → S → JSValue) (ex el : List Char → S → S) (σ : S),
      compileRender opts f s ev ex el σ = .ok (crNorm s) := by
    intro S ev ex el σ
    rw [compileRender, compileTemplate, hp]
    show Except.ok (renderTemplate ev ex el f [.lit (escapeLit s)] σ) = Except.ok (crNorm s)
    cases f with
    | zero =>
      have hs : s = [] := List.length_eq_zero.mp (Nat.le_zero.mp hf)
      subst hs
      rfl
    | succ f =>
      rw [renderTemplate, renderList, renderList_nil]
      simp [jsJoin, unescape_escape]
  refine ⟨hp, unescape_escape s, hr, ?_⟩
  intro hcr S ev ex el σ
  rw [hr S ev ex el σ, crNorm_id hcr]

/-- Witness for C1: the template `a\` + backtick + `$b`, which contains
backslash, backtick and dollar but no open delimiter and no carriage
return, compiles to one literal and renders back to itself. -/
theorem literal_identity_round_trip_witness :
    parseTemplate (mkOpts loader0) 20 "a\\`$b".data = .ok [.lit (escapeLit "a\\`$b".data)] ∧
    compileRender (mkOpts loader0) 20 "a\\`$b".data ev0 ex0 el0 () = .ok "a\\`$b".data := by
  have h := literal_identity_round_trip (mkOpts loader0) "a\\`$b".data 20
    (by decide) (by decide)
  exact ⟨h.1, h.2.2.2 (by decide) Unit ev0 ex0 el0 ()⟩

/-- C2: the default escaper maps exactly `<`, `>`, `&`, the apostrophe and
the double quote to their named entities, passes every other character
through unchanged and in order (it distributes over concatenation), maps
`null` and `undefined` to the empty string, and consequently an
escaped-output tag evaluating to `"<b>"` renders `"&lt;b&gt;"` while an
unescaped-output tag with the same value renders `"<b>"` verbatim. -/
theorem escaper_spec :
    escapeChar '<' = "&lt;".data ∧ escapeChar '>' = "&gt;".data ∧
    escapeChar '&' = "&amp;".data ∧ escapeChar squote = "&apos;".data ∧
    escapeChar dquote = "&quot;".data ∧
    (∀ c : Char, c ≠ '<' → c ≠ '>' → c ≠ '&' → c ≠ squote → c ≠ dquote →
      escapeChar c = [c]) ∧
    (∀ a b : List Char, escapeStr (a ++ b) = escapeStr a ++ escapeStr b) ∧
    escape .vNull = [] ∧ escape .vUndefined = [] ∧
    compileRender (mkOpts loader0) 20 "<%=x%>".data evB ex0 el0 () = .ok "&lt;b&gt;".data ∧
    compileRender (mkOpts loader0) 20 "<%-x%>".data evB ex0 el0 () = .ok "<b>".data := by
  refine ⟨rfl, rfl, rfl, rfl, rfl, ?_, ?_, rfl, rfl, rfl, rfl⟩
  · intro c h1 h2 h3 h4 h5
    simp [escapeChar, h1, h2, h3, h4, h5]
  · intro a b
    induction a with
    | nil => rfl
    | cons c t ih =>
      rw [List.cons_append, escapeStr, escapeStr, ih, List.append_assoc]

/-- Witness for C2: a character outside the five special ones passes through
the escaper unchanged. -/
theorem escaper_spec_witness : escapeChar 'z' = ['z'] :=
  escaper_spec.2.2.2.2.2.1 'z' (by decide) (by decide) (by decide) (by decide) (by decide)

/-- C3: a comment tag is closed by the comment delimiter immediately
followed by the close delimiter (the doubled marker): whenever that marker
first occurs right after the comment body, the scanner resumes immediately
after it with the literal run intact, so the tag contributes nothing — and
concretely, a comment whose body contains another tag and an unmatched plain
close delimiter contributes zero bytes to the output under every oracle and
scope. -/
theorem comment_doubled_close_and_suppression :
    (∀ (opts : Opts) (cc : Char) (B suffix acc : List Char) (f : Nat),
      ([cc] : List Char) = opts.delimiters.comment_ →
      findSub (opts.delimiters.comment_ ++ opts.delimiters.close_)
          (cc :: (B ++ (opts.delimiters.comment_ ++ opts.delimiters.close_) ++ suffix))
        = some (B.length + 1) →
      parseAux opts (f + 1)
          (opts.delimiters.open_
            ++ cc :: (B ++ (opts.delimiters.comment_ ++ opts.delimiters.close_) ++ suffix))
          acc
        = parseAux opts f suffix acc) ∧
    (∀ (S : Type) (ev : List Char → S → JSValue) (ex el : List Char → S → S) (σ : S),
      compileRender (mkOpts loader0) 100 "a<%! <%- x %> stray %> !%>b".data ev ex el σ
        = .ok "ab".data) := by
  constructor
  · intro opts cc B suffix acc f hcm hfind
    rw [parseAux_open, parseTag, if_pos hcm, hfind]
    show parseAux opts f
        ((cc :: (B ++ (opts.delimiters.comment_ ++ opts.delimiters.close_) ++ suffix)).drop
          (B.length + 1 + (opts.delimiters.comment_ ++ opts.delimiters.close_).length)) acc
      = parseAux opts f suffix acc
    congr 1
    have harr : cc :: (B ++ (opts.delimiters.comment_ ++ opts.delimiters.close_) ++ suffix)
        = (cc :: (B ++ (opts.delimiters.comment_ ++ opts.delimiters.close_))) ++ suffix := by
      simp
    rw [harr, List.drop_left' (by simp; omega)]
  · intro S ev ex el σ
    rfl

/-- Witness for C3: a concrete comment whose body ends right before the
doubled marker is skipped, the scan resuming at the tail. -/
theorem comment_doubled_close_witness :
    parseAux (mkOpts loader0) 51
        ("<%".data ++ '!' :: (" body %> ".data ++ ("!".data ++ "%>".data) ++ "tail".data)) []
      = parseAux (mkOpts loader0) 50 "tail".data [] :=
  comment_doubled_close_and_suppression.1 (mkOpts loader0) '!' " body %> ".data "tail".data []
    50 rfl (by decide)

/-- C4: a tag whose expected close marker never occurs at or after the
cursor aborts the whole compile with the unterminated-tag failure naming the
expected marker — for comment tags the doubled marker, for escaped,
unescaped and import tags the plain close delimiter searched after the
dispatch character, and for code tags the plain close delimiter searched
from the dispatch character itself; the error message contains the expected
marker text, and no partial template is produced. -/
theorem unterminated_tag_error :
    (∀ (opts : Opts) (f : Nat) (acc : List Char) (c2 : Char) (rt : List Char),
      ([c2] : List Char) = opts.delimiters.comment_ →
      findSub (opts.delimiters.comment_ ++ opts.delimiters.close_) (c2 :: rt) = none →
      parseAux opts (f + 1) (opts.delimiters.open_ ++ c2 :: rt) acc
        = .error (.unterminated (opts.delimiters.comment_ ++ opts.delimiters.close_))) ∧
    (∀ (opts : Opts) (f : Nat) (acc : List Char) (c2 : Char) (rt : List Char),
      ([c2] : List Char) ≠ opts.delimiters.comment_ →
      ([c2] : List Char) = opts.delimiters.escape_ →
      findSub opts.delimiters.close_ rt = none →
      parseAux opts (f + 1) (opts.delimiters.open_ ++ c2 :: rt) acc
        = .error (.unterminated opts.delimiters.close_)) ∧
    (∀ (opts : Opts) (f : Nat) (acc : List Char) (c2 : Char) (rt : List Char),
      ([c2] : List Char) ≠ opts.delimiters.comment_ →
      ([c2] : List Char) ≠ opts.delimiters.escape_ →
      ([c2] : List Char) = opts.delimiters.unescape_ →
      findSub opts.delimiters.close_ rt = none →
      parseAux opts (f + 1) (opts.delimiters.open_ ++ c2 :: rt) acc
        = .error (.unterminated opts.delimiters.close_)) ∧
    (∀ (opts : Opts) (f : Nat) (acc : List Char) (c2 : Char) (rt : List Char),
      ([c2] : List Char) ≠ opts.delimiters.comment_ →
      ([c2] : List Char) ≠ opts.delimiters.escape_ →
      ([c2] : List Char) ≠ opts.delimiters.unescape_ →
      ([c2] : List Char) = opts.delimiters.imp_ →
      findSub opts.delimiters.close_ rt = none →
      parseAux opts (f + 1) (opts.delimiters.open_ ++ c2 :: rt) acc
        = .error (.unterminated opts.delimiters.close_)) ∧
    (∀ (opts : Opts) (f : Nat) (acc : List Char) (c2 : Char) (rt : List Char),
      ([c2] : List Char) ≠ opts.delimiters.comment_ →
      ([c2] : List Char) ≠ opts.delimiters.escape_ →
      ([c2] : List Char) ≠ opts.delimiters.unescape_ →
      ([c2] : List Char) ≠ opts.delimiters.imp_ →
      findSub opts.delimiters.close_ (c2 :: rt) = none →
      parseAux opts (f + 1) (opts.delimiters.open_ ++ c2 :: rt) acc
        = .error (.unterminated opts.delimiters.close_)) ∧
    parseTemplate (mkOpts loader0) 100 "<%= unterminated".data
      = .error (.unterminated "%>".data) ∧
    (∀ endTag : List Char, List.IsInfix endTag (errorMessage (.unterminated endTag))) := by
  refine ⟨?_, ?_, ?_, ?_, ?_, rfl, ?_⟩
  · intro opts f acc c2 rt hcm hfind
    rw [parseAux_open, parseTag, if_pos hcm, hfind]
  · intro opts f acc c2 rt hnc hesc hfind
    rw [parseAux_open, parseTag, if_neg hnc, if_pos hesc, hfind]
  · intro opts f acc c2 rt hnc hne hun hfind
    rw [parseAux_open, parseTag, if_neg hnc, if_neg hne, if_pos hun, hfind]
  · intro opts f acc c2 rt hnc hne hnu himp hfind
    rw [parseAux_open, parseTag, if_neg hnc, if_neg hne, if_neg hnu, if_pos himp, hfind]
  · intro opts f acc c2 rt hnc hne hnu hni hfind
    rw [parseAux_open, parseTag, if_neg hnc, if_neg hne, if_neg hnu, if_neg hni, hfind]
  · intro endTag
    exact ⟨"Could not find matching close tag ".data ++ [squote], [squote, Char.ofNat 46],
      by simp [errorMessage, List.append_assoc]⟩

/-- Witness for C4: the escaped-output tag of `"<%= unterminated"` with the
default delimiters fails with the unterminated-tag error naming `%>`. -/
theorem unterminated_tag_error_witness :
    parseAux (mkOpts loader0) 6 ("<%".data ++ '=' :: " unterminated".data) []
      = .error (.unterminated "%>".data) :=
  unterminated_tag_error.2.1 (mkOpts loader0) 5 [] '=' " unterminated".data
    (by decide) rfl (by decide)

/-- C5, counterexample: the claim says the import-tag body is split on the
FIRST pipe, the locals expression being the trimmed right side.  On the body
`" world |a|b"` that reading demands the locals expression `"a|b"`
(`specImpLocals`), but the code splits on every pipe and keeps only the
second segment, compiling the import with locals expression `"a"`. -/
theorem import_split_first_pipe_cex :
    parseTemplate (mkOpts loaderWorld) 100 "<%+ world |a|b%>".data
      = .ok [.lit [], .lit [], .impTag [.lit "World".data] (some "a".data), .lit []] ∧
    impLocals " world |a|b".data = some "a".data ∧
    specImpLocals " world |a|b".data = some "a|b".data ∧
    (some "a".data : Option (List Char)) ≠ some "a|b".data :=
  ⟨rfl, rfl, rfl, by decide⟩

/-- C5, amended: the import-tag body is split on every pipe character; the
first segment, trimmed, is the template name passed to the loader, and the
second segment, trimmed, if present and non-empty, is the locals expression
(text after a second pipe is discarded); with no pipe the import shares the
current scope; and `"Hello <%+ world %>"` with the loader returning
`"World"` for `"world"` compiles and renders to `"Hello World"`. -/
theorem import_split_all_pipes :
    (∀ u : List Char, noPipe u = true → impName u = trimChars u ∧ impLocals u = none) ∧
    (∀ u v : List Char, noPipe u = true →
      impName (u ++ '|' :: v) = trimChars u ∧
      impLocals (u ++ '|' :: v)
        = (if trimChars (splitPipe v).headI = [] then none
           else some (trimChars (splitPipe v).headI))) ∧
    compileRender (mkOpts loaderWorld) 100 "Hello <%+ world %>".data ev0 ex0 el0 ()
      = .ok "Hello World".data := by
  refine ⟨?_, ?_, rfl⟩
  · intro u h
    exact ⟨impName_noPipe h, impLocals_noPipe h⟩
  · intro u v h
    exact ⟨impName_pipe v h, impLocals_pipe v h⟩

/-- Witness for C5: the body `" world | a | junk"` yields the template name
`"world"` and the locals expression `"a"` — the trimmed second segment, the
third being discarded. -/
theorem import_split_all_pipes_witness :
    impName (" world ".data ++ '|' :: " a | junk".data) = "world".data ∧
    impLocals (" world ".data ++ '|' :: " a | junk".data) = some "a".data := by
  have h := import_split_all_pipes.2.1 " world ".data " a | junk".data (by decide)
  exact ⟨h.1, h.2⟩

/-- C6: an import with a locals expression renders its child against the
scope obtained by evaluating that expression in the importer's scope while
the importer's own scope continues unchanged after the import; a
scope-sharing import renders the child against the importer's scope and the
child's mutations are visible to the continuation; in both cases the child's
buffer contributions precede the continuation's, preserving document order.
Concretely: a scoped import makes `x` visible only inside the child
(output `"1[]"`), a shared import's mutation of `x` is visible to the
importer afterwards (output `"9"`). -/
theorem import_scope_semantics :
    (∀ (S : Type) (ev : List Char → S → JSValue) (ex el : List Char → S → S)
       (f : Nat) (child ns : List Node) (e : List Char) (σ : S),
      renderList ev ex el (f + 1) (.impTag child (some e) :: ns) σ
        = ((renderList ev ex el f child (el e σ)).1 ++ (renderList ev ex el f ns σ).1,
           (renderList ev ex el f ns σ).2)) ∧
    (∀ (S : Type) (ev : List Char → S → JSValue) (ex el : List Char → S → S)
       (f : Nat) (child ns : List Node) (σ : S),
      renderList ev ex el (f + 1) (.impTag child none :: ns) σ
        = ((renderList ev ex el f child σ).1
             ++ (renderList ev ex el f ns (renderList ev ex el f child σ).2).1,
           (renderList ev ex el f ns (renderList ev ex el f child σ).2).2)) ∧
    compileRender (mkOpts childLoader) 100 "<%+ child | newscope %>[<%= x %>]".data
      evalX execSetX evalNewScope none = .ok "1[]".data ∧
    compileRender (mkOpts childLoader) 100 "<%+ child2 %><%= x %>".data
      evalX execSetX evalNewScope none = .ok "9".data :=
  ⟨fun _ _ _ _ _ _ _ _ _ => rfl, fun _ _ _ _ _ _ _ _ => rfl, rfl, rfl⟩

/-- C7, counterexample: a configuration with `open == close` is not rejected
at configuration-merge time — the merge returns it and template text is then
scanned with it. -/
theorem open_eq_close_not_rejected_cex :
    (mergeDelimiters eqDelimsCfg).open_ = (mergeDelimiters eqDelimsCfg).close_ ∧
    parseTemplate (Opts.mk (mergeDelimiters eqDelimsCfg) false loader0) 100 "a@@=x@@b".data
      = .ok [.lit "a".data, .escTag "x".data, .lit "b".data] :=
  ⟨rfl, rfl⟩

/-- C7, amended: the configuration merge performs no delimiter validation:
with `open` and `close` both `"@@"` it returns the merged delimiter set
(defaults filling the remaining fields) and compilation proceeds to scan and
render templates with it. -/
theorem merge_accepts_open_eq_close :
    mergeDelimiters eqDelimsCfg
      = Delims.mk "@@".data "@@".data "=".data "-".data "+".data "!".data ∧
    compileRender (Opts.mk (mergeDelimiters eqDelimsCfg) false loader0) 100 "a@@=x@@b".data
      ev0 ex0 el0 () = .ok "ab".data :=
  ⟨rfl, rfl⟩

/-- C8, counterexample: with a populated cache option, `compileTemplate` of
a template without import tags succeeds — compilation is not rejected merely
because the cache option is supplied. -/
theorem cache_compile_succeeds_cex :
    cacheOpts.cache = true ∧
    compileTemplate cacheOpts 100 "Hello".data = .ok [.lit "Hello".data] :=
  ⟨rfl, rfl⟩

/-- C8, amended: the unimplemented-cache rejection happens exactly on the
`getTemplate` path: with a populated cache every `getTemplate` call fails
with the cache-unimplemented error, hence `loadAndCompileTemplate` fails and
`compileTemplate` of a template containing an import tag fails, with the
message stating the template cache is unimplemented; `compileTemplate` of an
import-free template does not consult the cache. -/
theorem cache_rejected_on_get_template :
    (∀ (opts : Opts) (f : Nat) (name : List Char),
      opts.cache = true → getTemplate opts f name = .error .cacheUnimplemented) ∧
    getTemplate cacheOpts 100 "world".data = .error .cacheUnimplemented ∧
    loadAndCompileTemplate cacheOpts 100 "world".data = .error .cacheUnimplemented ∧
    compileTemplate cacheOpts 100 "Hello <%+ world %>".data = .error .cacheUnimplemented ∧
    errorMessage .cacheUnimplemented = "The template cache is unimplemented".data := by
  refine ⟨?_, rfl, rfl, rfl, rfl⟩
  intro opts f name h
  rw [getTemplate, if_pos h]

/-- Witness for C8: a populated cache makes a concrete `getTemplate` call
fail with the cache-unimplemented error. -/
theorem cache_rejected_on_get_template_witness :
    getTemplate cacheOpts 3 "x".data = .error .cacheUnimplemented :=
  cache_rejected_on_get_template.1 cacheOpts 3 "x".data rfl

/-- C9: rendering a compiled template with no code and no import nodes is a
pure function of the node sequence and the locals: it leaves the scope
unchanged, its output does not depend on the statement-execution or
locals-evaluation oracles at all, and rendering a second time with the scope
coming out of the first render yields the identical output. -/
theorem plain_render_deterministic :
    ∀ (S : Type) (ev : List Char → S → JSValue) (ex ex' el el' : List Char → S → S)
      (ns : List Node) (f : Nat) (σ : S),
      plainNodes ns = true → ns.length ≤ f →
      (renderList ev ex el f ns σ).2 = σ ∧
      renderList ev ex el f ns σ = renderList ev ex' el' f ns σ ∧
      renderTemplate ev ex el f ns ((renderList ev ex el f ns σ).2)
        = renderTemplate ev ex el f ns σ := by
  intro S ev ex ex' el el' ns f σ hp hf
  obtain ⟨h1, h2⟩ := renderList_plain ev ex ex' el el' ns f σ hp hf
  exact ⟨h1, h2, by rw [h1]⟩

/-- Witness for C9: a concrete code-free, import-free node sequence rendered
over the natural-number scope leaves the scope at its initial value and
renders identically under two different statement/locals oracles. -/
theorem plain_render_deterministic_witness :
    (renderList (fun _ (_ : Nat) => JSValue.vUndefined) (fun _ n => n + 1) (fun _ n => n + 2)
        5 [.lit "a".data, .escTag "x".data] 0).2 = 0 ∧
    renderList (fun _ (_ : Nat) => JSValue.vUndefined) (fun _ n => n + 1) (fun _ n => n + 2)
        5 [.lit "a".data, .escTag "x".data] 0
      = renderList (fun _ (_ : Nat) => JSValue.vUndefined) (fun _ n => n) (fun _ n => n)
        5 [.lit "a".data, .escTag "x".data] 0 := by
  have h := plain_render_deterministic Nat (fun _ _ => JSValue.vUndefined)
    (fun _ n => n + 1) (fun _ n => n) (fun _ n => n + 2) (fun _ n => n)
    [.lit "a".data, .escTag "x".data] 5 0 (by decide) (by decide)
  exact ⟨h.1, h.2.1⟩

/-- C10: the final buffer join converts `null` and `undefined` elements to
the empty string, so an unescaped-output tag whose expression evaluates to
`null` or `undefined` contributes the empty string to the output — never the
words `"null"` or `"undefined"`. -/
theorem raw_null_renders_empty :
    (∀ vs : List JSValue, jsJoin (.vNull :: vs) = jsJoin vs) ∧
    (∀ vs : List JSValue, jsJoin (.vUndefined :: vs) = jsJoin vs) ∧
    (∀ (S : Type) (ev : List Char → S → JSValue) (ex el : List Char → S → S) (σ : S),
      ev "x".data σ = .vNull →
      compileRender (mkOpts loader0) 20 "a<%-x%>b".data ev ex el σ = .ok "ab".data) ∧
    (∀ (S : Type) (ev : List Char → S → JSValue) (ex el : List Char → S → S) (σ : S),
      ev "x".data σ = .vUndefined →
      compileRender (mkOpts loader0) 20 "a<%-x%>b".data ev ex el σ = .ok "ab".data) := by
  refine ⟨fun vs => rfl, fun vs => rfl, ?_, ?_⟩
  all_goals
    intro S ev ex el σ h
    rw [show compileRender (mkOpts loader0) 20 "a<%-x%>b".data ev ex el σ
        = .ok (jsJoin [.vStr "a".data, ev "x".data σ, .vStr "b".data]) from rfl, h]
    rfl

/-- Witness for C10: with evaluators returning `null` (respectively
`undefined`), the template `"a<%-x%>b"` renders `"ab"`. -/
theorem raw_null_renders_empty_witness :
    compileRender (mkOpts loader0) 20 "a<%-x%>b".data evNull ex0 el0 () = .ok "ab".data ∧
    compileRender (mkOpts loader0) 20 "a<%-x%>b".data evUndef ex0 el0 () = .ok "ab".data :=
  ⟨raw_null_renders_empty.2.2.1 Unit evNull ex0 el0 () rfl,
   raw_null_renders_empty.2.2.2 Unit evUndef ex0 el0 () rfl⟩

end StaticHtml
